import Mathlib

/-!
Verification of the forecasting logic of `src/app.py`.

The substantive code is the function `calculate_all_forecasts`
(src/app.py lines 60-80) together with the percent-change figure
`diff_val` (src/app.py lines 109-123).  The embedding below mirrors the
pandas pipeline step by step:

* a pandas float cell is modelled by `PF` (a rational, NaN, or ±infinity,
  with IEEE-style arithmetic — division by zero yields ±infinity or NaN,
  NaN propagates);
* months are integers counting calendar months: the app stores
  first-of-month dates and moves them with `pd.DateOffset(months=i)` /
  `pd.DateOffset(years=1)`, which on first-of-month dates is exactly
  month-index arithmetic;
* `df.sort_values('Monat')` is `List.insertionSort` on the month key;
* `Series.shift(n)` / `rolling(window=6, min_periods=1).mean()` /
  `dropna()` / `tail(6)` / `mean()` are modelled with their positional
  index semantics (NaN entries are skipped by `mean`, kept nowhere).
-/

/-- Scalar of a pandas float column: a rational value, NaN, or ±infinity. -/
inductive PF where
  | nan : PF
  | inf : PF
  | ninf : PF
  | val : ℚ → PF
deriving DecidableEq

namespace PF

/-- IEEE negation on `PF`. -/
def neg : PF → PF
  | nan => nan
  | inf => ninf
  | ninf => inf
  | val a => val (-a)

/-- IEEE addition on `PF`: NaN propagates, `inf + ninf = NaN`. -/
def add : PF → PF → PF
  | nan, _ => nan
  | inf, nan => nan
  | inf, inf => inf
  | inf, ninf => nan
  | inf, val _ => inf
  | ninf, nan => nan
  | ninf, inf => nan
  | ninf, ninf => ninf
  | ninf, val _ => ninf
  | val _, nan => nan
  | val _, inf => inf
  | val _, ninf => ninf
  | val a, val b => val (a + b)

/-- IEEE subtraction on `PF`. -/
def sub (x y : PF) : PF := x.add y.neg

/-- IEEE multiplication on `PF`: NaN propagates, `inf * 0 = NaN`. -/
def mul : PF → PF → PF
  | nan, _ => nan
  | inf, nan => nan
  | inf, inf => inf
  | inf, ninf => ninf
  | inf, val b => if b = 0 then nan else if 0 < b then inf else ninf
  | ninf, nan => nan
  | ninf, inf => ninf
  | ninf, ninf => inf
  | ninf, val b => if b = 0 then nan else if 0 < b then ninf else inf
  | val _, nan => nan
  | val a, inf => if a = 0 then nan else if 0 < a then inf else ninf
  | val a, ninf => if a = 0 then nan else if 0 < a then ninf else inf
  | val a, val b => val (a * b)

/-- IEEE division on `PF`: a nonzero value divided by zero is ±infinity,
`0 / 0` is NaN, `inf / inf` is NaN, a finite value over infinity is `0`. -/
def div : PF → PF → PF
  | nan, _ => nan
  | inf, nan => nan
  | inf, inf => nan
  | inf, ninf => nan
  | inf, val b => if 0 ≤ b then inf else ninf
  | ninf, nan => nan
  | ninf, inf => nan
  | ninf, ninf => nan
  | ninf, val b => if 0 ≤ b then ninf else inf
  | val _, nan => nan
  | val _, inf => val 0
  | val _, ninf => val 0
  | val a, val b =>
      if b = 0 then (if a = 0 then nan else if 0 < a then inf else ninf)
      else val (a / b)

/-- Test for the NaN cell, used to model `dropna()` and the NaN-skipping of
`mean()`. -/
def isNaN : PF → Bool
  | nan => true
  | _ => false

end PF

/-- Mean of a pandas float series (`Series.mean()`, also the kernel of
`rolling(...).mean()`): NaN entries are skipped; the result is NaN when no
non-NaN entry exists. -/
def pmean (l : List PF) : PF :=
  let xs := l.filter (fun x => !x.isNaN)
  if xs.isEmpty then PF.nan
  else (xs.foldl PF.add (PF.val 0)).div (PF.val xs.length)

/-- An input row of the observation table `ring_prov`: `(Monat, Betrag)`,
the month as a calendar-month index and the amount as a rational. -/
abbrev Obs := ℤ × ℚ

/-- Line 61: `df = df_historical.sort_values('Monat').copy()`. -/
def sortObs (obs : List Obs) : List Obs :=
  List.insertionSort (fun a b => a.1 ≤ b.1) obs

/-- Line 62, entry `i` of `df['prev_year_amount'] = df['Betrag'].shift(12)`:
the amount 12 rows (positions) earlier, NaN for the first 12 rows. -/
def prevF (b : List ℚ) (i : ℕ) : PF :=
  if 12 ≤ i then PF.val (b.getD (i - 12) 0) else PF.nan

/-- Line 63, entry `i` of
`df['yoy_growth'] = (df['Betrag'] / df['prev_year_amount']) - 1`. -/
def yoyF (b : List ℚ) (i : ℕ) : PF :=
  ((PF.val (b.getD i 0)).div (prevF b i)).sub (PF.val 1)

/-- Entry `j` of `df['yoy_growth'].shift(1)` (line 64). -/
def yoyShift (b : List ℚ) (j : ℕ) : PF :=
  if j = 0 then PF.nan else yoyF b (j - 1)

/-- Line 64, entry `i` of `df['rolling_trend'] =
df['yoy_growth'].shift(1).rolling(window=6, min_periods=1).mean()`:
the mean of the non-NaN entries of the shifted column over the positional
window of rows `max(0, i-5) .. i`. -/
def rollF (b : List ℚ) (i : ℕ) : PF :=
  pmean ((List.range' (i + 1 - 6) (i + 1 - (i + 1 - 6))).map (yoyShift b))

/-- Line 65, entry `i` of
`df['hist_forecast'] = df['prev_year_amount'] * (1 + df['rolling_trend'])`. -/
def histF (b : List ℚ) (i : ℕ) : PF :=
  (prevF b i).mul ((PF.val 1).add (rollF b i))

/-- Line 66: `current_trend = df['yoy_growth'].dropna().tail(6).mean()
if not df['yoy_growth'].dropna().empty else 0`.  `dropna` removes NaN
entries only (infinities are kept). -/
def currentTrendF (b : List ℚ) : PF :=
  let g := ((List.range b.length).map (yoyF b)).filter (fun x => !x.isNaN)
  if g.isEmpty then PF.val 0 else pmean (g.drop (g.length - 6))

/-- Line 77 fallback: `df['Betrag'].tail(6).mean()` — the mean of the last
(up to) 6 amounts of the sorted historical table. -/
def tail6mean (b : List ℚ) : PF :=
  pmean ((b.drop (b.length - 6)).map PF.val)

/-- Lines 71-78: the 12 future rows.  For `i = 1..12` the forecast month is
`last_date + i`; the row whose `Monat` equals `f_month - 12` months is looked
up by exact calendar match (`df[df['Monat'] == target_prev_year]`); if it
exists the forecast is `Betrag * (1 + current_trend)`, otherwise the mean of
the last (up to) 6 observed amounts. -/
def futureF (s : List Obs) (lastDate : ℤ) (ct : PF) : List (ℤ × PF) :=
  (List.range 12).map (fun (k : ℕ) =>
    let fm : ℤ := lastDate + ((k : ℤ) + 1)
    match s.find? (fun r => decide (r.1 = fm - 12)) with
    | some row => (fm, (PF.val row.2).mul ((PF.val 1).add ct))
    | none => (fm, tail6mean (s.map Prod.snd)))

/-- The value returned by `calculate_all_forecasts` (line 80): the historical
dataframe columns, the future dataframe, the current trend and the last
observed point. -/
structure ForecastResult where
  monat : List ℤ
  betrag : List ℚ
  pya : List PF
  yoy_growth : List PF
  rolling_trend : List PF
  hist_forecast : List PF
  current_trend : PF
  future : List (ℤ × PF)
  last_point : Obs
deriving DecidableEq

/-- Lines 60-80, `calculate_all_forecasts(df_historical)`.  The result is
`none` exactly when the input is empty: on an empty table the pipeline
raises (`df['Betrag']` / `df.iloc[-1]` fail on the empty dataframe produced
by `load_data`), modelled here as the absent result. -/
def calculate_all_forecasts (obs : List Obs) : Option ForecastResult :=
  let s := sortObs obs
  match s.getLast? with
  | none => none
  | some lr =>
    let b := s.map Prod.snd
    some {
      monat := s.map Prod.fst
      betrag := b
      pya := (List.range b.length).map (prevF b)
      yoy_growth := (List.range b.length).map (yoyF b)
      rolling_trend := (List.range b.length).map (rollF b)
      hist_forecast := (List.range b.length).map (histF b)
      current_trend := currentTrendF b
      future := futureF s lr.1 (currentTrendF b)
      last_point := lr }

/-- Lines 122-123: the "vs. Vor-Zeitraum" figure
`diff_val = f"{((sum_period / df_prev_period['Betrag'].sum()) - 1) * 100:+.1f} %"
if not df_prev_period.empty else "--"`.  The sentinel `"--"` is modelled as
`none`; otherwise the numeric value formatted into the string is returned. -/
def diff_val (sum_period : ℚ) (prev_period : List ℚ) : Option PF :=
  if prev_period.isEmpty then none
  else some ((((PF.val sum_period).div
      (PF.val (prev_period.foldl (· + ·) 0))).sub (PF.val 1)).mul (PF.val 100))

/-- Modelled from the spec wording for claim C4 (`estimateTrend`): the
arithmetic mean of the growth factors of the 6 most recent rows strictly
before row `i` that have a defined (non-NaN) growth factor, skipping rows
without one; NaN when none exists. -/
def trendSpecSkipUndefined (b : List ℚ) (i : ℕ) : PF :=
  let priors := ((List.range i).map (yoyF b)).filter (fun x => !x.isNaN)
  pmean (priors.drop (priors.length - 6))

/-- Fixture: a single observation, month 0 with amount 1. -/
def obsSingle : List Obs := [(0, 1)]

/-- The value of `calculate_all_forecasts` on `obsSingle`, written out. -/
def resSingle : ForecastResult :=
  { monat := [0]
    betrag := [1]
    pya := [PF.nan]
    yoy_growth := [PF.nan]
    rolling_trend := [PF.nan]
    hist_forecast := [PF.nan]
    current_trend := PF.val 0
    future := [(1, PF.val 1), (2, PF.val 1), (3, PF.val 1), (4, PF.val 1),
               (5, PF.val 1), (6, PF.val 1), (7, PF.val 1), (8, PF.val 1),
               (9, PF.val 1), (10, PF.val 1), (11, PF.val 1), (12, PF.val 1)]
    last_point := (0, 1) }

/-- Fixture: two observations a year apart with an 11-month gap between the
rows (months 0 and 12). -/
def obsGap : List Obs := [(0, 100), (12, 110)]

/-- Fixture: 13 observations, months 0-11 and 13 (month 12 missing), amounts
`100 + i` for months 0-11 and `220` for month 13. -/
def obsSkip : List Obs :=
  [(0, 100), (1, 101), (2, 102), (3, 103), (4, 104), (5, 105), (6, 106),
   (7, 107), (8, 108), (9, 109), (10, 110), (11, 111), (13, 220)]

/-- Fixture: observations at months 0 and 2 only (month 1 missing). -/
def obsHole : List Obs := [(0, 1), (2, 1)]

/-- Fixture: 20 gap-free monthly observations in which the growth factor of
row 15 is NaN (`0/0`) while rows 12, 13, 14, 16, 17, 18 have defined growth
factors, so the six positional rows before row 19 contain a NaN. -/
def obsWindow : List Obs :=
  [(0, 1), (1, 1), (2, 1), (3, 0), (4, 1), (5, 1), (6, 1), (7, 1), (8, 1),
   (9, 1), (10, 1), (11, 1), (12, 2), (13, 1), (14, 1), (15, 0), (16, 1),
   (17, 1), (18, 1), (19, 1)]

/-- Fixture: 13 gap-free monthly observations whose first amount is `0` and
whose last amount is `5`, so the prior-year anchor of row 12 is zero. -/
def obsZeroAnchor : List Obs :=
  [(0, 0), (1, 1), (2, 1), (3, 1), (4, 1), (5, 1), (6, 1), (7, 1), (8, 1),
   (9, 1), (10, 1), (11, 1), (12, 5)]

instance : IsTotal Obs (fun a b => a.1 ≤ b.1) :=
  ⟨fun a b => le_total a.1 b.1⟩

instance : IsTrans Obs (fun a b => a.1 ≤ b.1) :=
  ⟨fun _ _ _ h1 h2 => le_trans h1 h2⟩

/-! Helper lemmas about the embedded pipeline. -/

theorem PF.add_nan (x : PF) : PF.add x PF.nan = PF.nan := by
  cases x <;> rfl

theorem PF.nan_add (x : PF) : PF.add PF.nan x = PF.nan := rfl

theorem PF.nan_mul (x : PF) : PF.mul PF.nan x = PF.nan := rfl

/-- Rate and factor form agree: adding 1 back to `x - 1` returns `x`, also
through NaN and infinities. -/
theorem PF.one_add_sub_one (x : PF) :
    (PF.val 1).add (x.sub (PF.val 1)) = x := by
  cases x <;> simp [PF.sub, PF.neg, PF.add]

theorem pmean_nil : pmean [] = PF.nan := rfl

theorem pmean_nan_cons (l : List PF) : pmean (PF.nan :: l) = pmean l := by
  simp [pmean, PF.isNaN, List.filter_cons]

theorem getElem?_range_map {α : Type} (f : ℕ → α) {n i : ℕ} (h : i < n) :
    ((List.range n).map f)[i]? = some (f i) := by
  rw [List.getElem?_map, List.getElem?_range h]
  rfl

/-- Inversion of `calculate_all_forecasts` on a non-`none` result: every
component of the record in terms of the sorted input. -/
theorem calc_inv {obs : List Obs} {r : ForecastResult}
    (h : calculate_all_forecasts obs = some r) :
    (sortObs obs).getLast? = some r.last_point
    ∧ r.monat = (sortObs obs).map Prod.fst
    ∧ r.betrag = (sortObs obs).map Prod.snd
    ∧ r.pya = (List.range r.betrag.length).map (prevF r.betrag)
    ∧ r.yoy_growth = (List.range r.betrag.length).map (yoyF r.betrag)
    ∧ r.rolling_trend = (List.range r.betrag.length).map (rollF r.betrag)
    ∧ r.hist_forecast = (List.range r.betrag.length).map (histF r.betrag)
    ∧ r.current_trend = currentTrendF r.betrag
    ∧ r.future = futureF (sortObs obs) r.last_point.1 r.current_trend := by
  rcases hL : (sortObs obs).getLast? with _ | lr
  · simp only [calculate_all_forecasts, hL] at h
    exact absurd h (by simp)
  · simp only [calculate_all_forecasts, hL, Option.some.injEq] at h
    subst h
    exact ⟨rfl, rfl, rfl, rfl, rfl, rfl, rfl, rfl, rfl⟩

theorem sortObs_perm (obs : List Obs) : (sortObs obs).Perm obs :=
  List.perm_insertionSort _ _

/-- Exact-match lookup on the month key: `find?` returns the unique row with
the sought month when months are distinct. -/
theorem find?_month_eq {s : List Obs} {t : ℤ} {a : ℚ}
    (hnd : (s.map Prod.fst).Nodup) (hm : (t, a) ∈ s) :
    s.find? (fun r => decide (r.1 = t)) = some (t, a) := by
  induction s with
  | nil => cases hm
  | cons x xs ih =>
    rw [List.map_cons, List.nodup_cons] at hnd
    by_cases hx : x.1 = t
    · have hxa : x = (t, a) := by
        rcases List.mem_cons.mp hm with hmx | hmtl
        · exact hmx.symm
        · exact absurd (List.mem_map.mpr ⟨(t, a), hmtl, rfl⟩) (hx ▸ hnd.1)
      subst hxa
      exact List.find?_cons_of_pos _ (by simp)
    · rcases List.mem_cons.mp hm with hmx | hmtl
      · exact absurd (congrArg Prod.fst hmx.symm) hx
      · rw [List.find?_cons_of_neg _ (by simpa using hx)]
        exact ih hnd.2 hmtl

theorem futureF_length (s : List Obs) (d : ℤ) (ct : PF) :
    (futureF s d ct).length = 12 := by
  simp [futureF]

theorem futureF_map_fst (s : List Obs) (d : ℤ) (ct : PF) :
    (futureF s d ct).map Prod.fst
      = (List.range 12).map (fun (k : ℕ) => d + ((k : ℤ) + 1)) := by
  unfold futureF
  rw [List.map_map]
  apply List.map_congr_left
  intro k _
  simp only [Function.comp]
  cases hf : s.find? (fun r => decide (r.1 = d + ((k : ℤ) + 1) - 12)) <;> rfl

theorem futureF_getElem {s : List Obs} {d : ℤ} {ct : PF} {k : ℕ} (hk : k < 12) :
    (futureF s d ct)[k]?
      = some (match s.find? (fun r => decide (r.1 = d + ((k : ℤ) + 1) - 12)) with
        | some row => (d + ((k : ℤ) + 1), (PF.val row.2).mul ((PF.val 1).add ct))
        | none => (d + ((k : ℤ) + 1), tail6mean (s.map Prod.snd))) := by
  unfold futureF
  rw [getElem?_range_map _ hk]

/-- The future months are twelve consecutive months after the last date. -/
theorem chain'_future_months (d : ℤ) :
    List.Chain' (fun a b : ℤ => b = a + 1)
      ((List.range 12).map (fun (k : ℕ) => d + ((k : ℤ) + 1))) := by
  rw [List.chain'_map]
  have h : List.Chain' (fun a b : ℕ => b = a + 1) (List.range 12) := by
    show List.Chain' _ [0, 1, 2, 3, 4, 5, 6, 7, 8, 9, 10, 11]
    simp [List.chain'_cons]
  refine h.imp ?_
  intro a b hab
  subst hab
  push_cast
  ring

/-- The rolling window of `rolling_trend` at row `i` is exactly the positional
window of the 6 rows immediately before `i` of the unshifted growth column:
shifting by one and rolling over rows `max(0, i-5) .. i` is the same as
averaging the growth factors of rows `max(0, i-6) .. i-1` (the leading NaN
introduced by `shift(1)` at row 0 is skipped by the mean). -/
theorem rollF_eq_prior_window (b : List ℚ) (i : ℕ) :
    rollF b i = pmean ((List.range' (i - 6) (i - (i - 6))).map (yoyF b)) := by
  unfold rollF
  rcases le_or_lt 6 i with h6 | h6
  · have h1 : i + 1 - 6 = i - 5 := by omega
    have h2 : i + 1 - (i + 1 - 6) = 6 := by omega
    have h3 : i - (i - 6) = 6 := by omega
    rw [h2, h1, h3, List.range'_eq_map_range, List.range'_eq_map_range,
      List.map_map, List.map_map]
    apply congrArg
    apply List.map_congr_left
    intro t ht
    simp only [Function.comp, yoyShift]
    rw [if_neg (by omega : ¬(i - 5 + t = 0))]
    congr 1
    omega
  · have h1 : i + 1 - 6 = 0 := by omega
    have h4 : i - 6 = 0 := by omega
    rw [h1, h4]
    simp only [Nat.sub_zero]
    rw [← List.range_eq_range', ← List.range_eq_range', List.range_succ_eq_map,
      List.map_cons, List.map_map]
    have h0 : yoyShift b 0 = PF.nan := rfl
    rw [h0, pmean_nan_cons]
    apply congrArg
    apply List.map_congr_left
    intro t ht
    simp only [Function.comp, yoyShift]
    rw [if_neg (Nat.succ_ne_zero t)]
    congr 1

set_option maxHeartbeats 1000000 in
theorem eval_obsSingle : calculate_all_forecasts obsSingle = some resSingle := by
  norm_num [obsSingle, resSingle, calculate_all_forecasts, sortObs, List.insertionSort,
    List.orderedInsert, yoyF, prevF, yoyShift, rollF, histF, currentTrendF, tail6mean,
    futureF, pmean, PF.div, PF.sub, PF.add, PF.neg, PF.mul, PF.isNaN,
    List.range_succ, List.range', List.getD, List.getLast?, List.filter_cons,
    List.filter_nil, List.drop, List.find?]

/-- On any non-empty input the pipeline returns a result. -/
theorem calc_some_of_ne_nil (obs : List Obs) (h : obs ≠ []) :
    ∃ r, calculate_all_forecasts obs = some r := by
  have hlen : (sortObs obs).length = obs.length := (sortObs_perm obs).length_eq
  have hs : sortObs obs ≠ [] := by
    intro hnil
    rw [hnil] at hlen
    exact h (List.length_eq_zero.mp hlen.symm)
  have hsome : (sortObs obs).getLast?.isSome = true := List.getLast?_isSome.mpr hs
  rcases hL : (sortObs obs).getLast? with _ | lr
  · rw [hL] at hsome
    cases hsome
  · exact Option.isSome_iff_exists.mp
      (by simp only [calculate_all_forecasts, hL, Option.isSome_some])

/-- The mean of the last six amounts of a one-row table is its amount. -/
theorem tail6mean_singleton (a : ℚ) : tail6mean [a] = PF.val a := by
  norm_num [tail6mean, pmean, PF.isNaN, PF.add, PF.div, List.filter_cons]

/-- C1: the claim states that the growth factor is computed from the
observation exactly 12 calendar months earlier by date-keyed match.  The code
(line 62) uses the positional `shift(12)` instead.  On `obsGap` (months 0 and
12 only) the claim demands `growth(month 12) = 110/100 - 1`, but the code
yields NaN for both rows; on `obsSkip` (months 0-11 and 13) the claim demands
`growth(month 13) = 220/101 - 1` (anchor month 1), but the code pairs row 12
with row 0 and yields `220/100 - 1 = 6/5`. -/
theorem C1_growth_positional_shift :
    (calculate_all_forecasts obsGap).map (fun r => r.yoy_growth)
      = some [PF.nan, PF.nan]
    ∧ (calculate_all_forecasts obsSkip).map (fun r => r.yoy_growth.getD 12 PF.nan)
      = some (PF.val (6 / 5))
    ∧ (6 : ℚ) / 5 ≠ 220 / 101 - 1 := by
  refine ⟨?_, ?_, by norm_num⟩
  · norm_num [obsGap, calculate_all_forecasts, sortObs, List.insertionSort,
      List.orderedInsert, yoyF, prevF, PF.div, PF.sub, PF.add, PF.neg,
      List.range_succ, List.getD, List.getLast?]
  · norm_num [obsSkip, calculate_all_forecasts, sortObs, List.insertionSort,
      List.orderedInsert, yoyF, prevF, PF.div, PF.sub, PF.add, PF.neg,
      List.range_succ, List.getD, List.getLast?]

/-- C3 (counterexample): the claim states that the engine, invoked on zero
observations, returns an empty timeline rather than an error; the code raises
on the empty table (modelled as the absent result `none`). -/
theorem C3_counterexample : calculate_all_forecasts ([] : List Obs) = none := rfl

/-- C3 (amended): the pipeline raises on the empty input (the caller catches
the exception); on every non-empty input it returns a result, missing history
being represented as NaN cells rather than raising. -/
theorem C3_nonempty_total (obs : List Obs) (h : obs ≠ []) :
    (calculate_all_forecasts obs).isSome := by
  obtain ⟨r, hr⟩ := calc_some_of_ne_nil obs h
  rw [hr]
  rfl

/-- Witness for C3 on a concrete non-empty input. -/
theorem C3_nonempty_total_witness :
    ([((0 : ℤ), (1 : ℚ))] ≠ ([] : List Obs))
      ∧ (calculate_all_forecasts [((0 : ℤ), (1 : ℚ))]).isSome := by
  refine ⟨by simp, C3_nonempty_total _ (by simp)⟩

/-- C2 (counterexample): the claim states the combined timeline is a
contiguous monthly sequence spanning `[min, max + 12]` with every month
present exactly once, of length `(max - min) + 12 + 1`, even for gapped
input.  On `obsHole` (months 0 and 2) the code's timeline is the 14 months
`[0, 2, 3, ..., 14]`: month 1 is missing and the length is 14, not
`(2 - 0) + 12 + 1 = 15`. -/
theorem C2_counterexample :
    (calculate_all_forecasts obsHole).map (fun r => r.monat ++ r.future.map Prod.fst)
      = some [0, 2, 3, 4, 5, 6, 7, 8, 9, 10, 11, 12, 13, 14]
    ∧ (1 : ℤ) ∉ ([0, 2, 3, 4, 5, 6, 7, 8, 9, 10, 11, 12, 13, 14] : List ℤ)
    ∧ ([0, 2, 3, 4, 5, 6, 7, 8, 9, 10, 11, 12, 13, 14] : List ℤ).length ≠ 2 - 0 + 12 + 1 := by
  refine ⟨?_, by decide, by decide⟩
  norm_num [obsHole, calculate_all_forecasts, sortObs, List.insertionSort,
    List.orderedInsert, futureF, tail6mean, currentTrendF, pmean, yoyF, prevF,
    PF.div, PF.sub, PF.add, PF.neg, PF.isNaN, List.range_succ, List.getD,
    List.getLast?, List.filter_cons, List.filter_nil, List.drop, List.find?]

/-- C2 (amended): the timeline returned by the code is the sorted observed
months followed by exactly 12 consecutive months after the last observed
month; its length is `(number of observations) + 12`; the historical part is
sorted ascending, and the whole timeline is contiguous exactly when the
observed months themselves are gap-free. -/
theorem C2_timeline_amended (obs : List Obs) (r : ForecastResult)
    (h : calculate_all_forecasts obs = some r) :
    r.future.map Prod.fst
      = (List.range 12).map (fun (k : ℕ) => r.last_point.1 + ((k : ℤ) + 1))
    ∧ (r.monat ++ r.future.map Prod.fst).length = obs.length + 12
    ∧ r.monat.Sorted (· ≤ ·)
    ∧ (List.Chain' (fun a b : ℤ => b = a + 1) r.monat →
        List.Chain' (fun a b : ℤ => b = a + 1) (r.monat ++ r.future.map Prod.fst)) := by
  obtain ⟨hlast, hmonat, hbetrag, _, _, _, _, hct, hfut⟩ := calc_inv h
  refine ⟨?_, ?_, ?_, ?_⟩
  · rw [hfut, futureF_map_fst]
  · simp [List.length_append, hmonat, hfut, futureF_length, List.length_map,
      (sortObs_perm obs).length_eq]
  · rw [hmonat]
    have hsorted : List.Sorted (fun a b : Obs => a.1 ≤ b.1) (sortObs obs) :=
      List.sorted_insertionSort _ _
    exact hsorted.map Prod.fst (fun a b hab => hab)
  · intro hm
    refine List.chain'_append.mpr ⟨hm, ?_, ?_⟩
    · rw [hfut, futureF_map_fst]
      exact chain'_future_months _
    · intro x hx y hy
      rw [hmonat, List.getLast?_map, hlast] at hx
      rw [hfut, futureF_map_fst,
        (show List.range 12 = 0 :: [1, 2, 3, 4, 5, 6, 7, 8, 9, 10, 11] from rfl),
        List.map_cons, List.head?_cons] at hy
      simp only [Option.map_some', Option.mem_def, Option.some.injEq] at hx hy
      subst hx
      subst hy
      push_cast
      ring

/-- Witness for C2 on a concrete input: a single observation yields a
13-month contiguous timeline. -/
theorem C2_timeline_amended_witness :
    ∃ r, calculate_all_forecasts obsSingle = some r
      ∧ (r.monat ++ r.future.map Prod.fst).length = obsSingle.length + 12
      ∧ List.Chain' (fun a b : ℤ => b = a + 1) (r.monat ++ r.future.map Prod.fst) := by
  have c2 := C2_timeline_amended obsSingle resSingle eval_obsSingle
  refine ⟨resSingle, eval_obsSingle, c2.2.1, ?_⟩
  apply c2.2.2.2
  simp [resSingle]

set_option maxHeartbeats 2000000 in
/-- C4 (counterexample): the claim states the trend at P averages the growth
factors of the 6 most recent months strictly before P that have a defined
factor, skipping undefined ones, so with at least 6 defined prior factors
exactly those 6 are averaged.  On `obsWindow`, row 19 has six defined prior
factors (rows 12, 13, 14, 16, 17, 18, mean `1/6`, the value of
`trendSpecSkipUndefined`), but the code averages only the defined entries of
the fixed positional window rows 13-18 (skipping the NaN at row 15 without
reaching back to row 12) and returns `0`. -/
theorem C4_counterexample :
    (calculate_all_forecasts obsWindow).map
        (fun r => (r.rolling_trend.getD 19 PF.nan, trendSpecSkipUndefined r.betrag 19))
      = some (PF.val 0, PF.val (1 / 6))
    ∧ PF.val 0 ≠ PF.val (1 / 6) := by
  constructor
  · norm_num [obsWindow, calculate_all_forecasts, sortObs, List.insertionSort,
      List.orderedInsert, yoyF, prevF, yoyShift, rollF, trendSpecSkipUndefined,
      pmean, PF.div, PF.sub, PF.add, PF.neg, PF.isNaN, List.range_succ,
      List.range', List.getD, List.getLast?, List.filter_cons, List.filter_nil,
      List.drop]
  · intro heq
    rw [PF.val.injEq] at heq
    norm_num at heq

/-- C4 (amended): the trend at row `i` is the mean of the defined (non-NaN)
growth factors among the at most 6 rows immediately preceding row `i` — a
fixed positional window whose NaN entries are skipped by the mean but never
replaced by reaching further back; it is NaN when that window holds no
defined factor, and it never includes row `i`'s own factor. -/
theorem C4_trend_window_amended (obs : List Obs) (r : ForecastResult)
    (h : calculate_all_forecasts obs = some r) (i : ℕ) (hi : i < r.betrag.length) :
    r.rolling_trend[i]?
      = some (pmean ((List.range' (i - 6) (i - (i - 6))).map (yoyF r.betrag))) := by
  obtain ⟨_, _, _, _, _, hroll, _, _, _⟩ := calc_inv h
  rw [hroll, getElem?_range_map _ hi, rollF_eq_prior_window]

/-- Witness for C4 on a concrete input. -/
theorem C4_trend_window_amended_witness :
    ∃ r, calculate_all_forecasts obsSingle = some r
      ∧ 0 < r.betrag.length
      ∧ r.rolling_trend[0]?
          = some (pmean ((List.range' (0 - 6) (0 - (0 - 6))).map (yoyF r.betrag))) := by
  refine ⟨resSingle, eval_obsSingle, by norm_num [resSingle], ?_⟩
  exact C4_trend_window_amended obsSingle resSingle eval_obsSingle 0
    (by norm_num [resSingle])

set_option maxHeartbeats 1000000 in
/-- C5 (counterexample): the claim states that a zero prior-year anchor makes
the growth factor absent and that the computation never divides by zero or
produces an infinite value.  On `obsZeroAnchor` the anchor of row 12 is 0 and
its amount is 5; the code divides by zero and yields `+infinity` — a defined,
infinite value, not an absent one. -/
theorem C5_counterexample :
    (calculate_all_forecasts obsZeroAnchor).map (fun r => r.yoy_growth.getD 12 (PF.val 0))
      = some PF.inf
    ∧ PF.inf ≠ PF.nan := by
  refine ⟨?_, by simp⟩
  norm_num [obsZeroAnchor, calculate_all_forecasts, sortObs, List.insertionSort,
    List.orderedInsert, yoyF, prevF, PF.div, PF.sub, PF.add, PF.neg,
    List.range_succ, List.getD, List.getLast?]

/-- C5 (amended): the growth factor at row `i` is NaN when the positional
anchor is absent (first 12 rows) and NaN when both the anchor and the amount
are 0, but when the anchor is 0 and the amount is nonzero the code divides by
zero and produces `±infinity` (`+infinity` for the nonnegative amounts of this
input table); with a nonzero anchor it is the exact rate.  No exception is
raised in any case. -/
theorem C5_zero_anchor_amended (obs : List Obs) (r : ForecastResult)
    (h : calculate_all_forecasts obs = some r) (i : ℕ) (hi : i < r.betrag.length) :
    r.yoy_growth[i]?
      = some (if 12 ≤ i then
          (if r.betrag.getD (i - 12) 0 = 0 then
            (if r.betrag.getD i 0 = 0 then PF.nan
             else if 0 < r.betrag.getD i 0 then PF.inf else PF.ninf)
           else PF.val (r.betrag.getD i 0 / r.betrag.getD (i - 12) 0 - 1))
        else PF.nan) := by
  obtain ⟨_, _, _, _, hyoy, _, _, _, _⟩ := calc_inv h
  rw [hyoy, getElem?_range_map _ hi]
  congr 1
  unfold yoyF prevF
  simp only [List.getD_eq_getElem?_getD]
  split_ifs with h12 h0 hb hpos
  · simp [PF.div, PF.sub, PF.add, PF.neg, h0, hb]
  · simp [PF.div, PF.sub, PF.add, PF.neg, h0, hb, hpos]
  · simp [PF.div, PF.sub, PF.add, PF.neg, h0, hb, hpos]
  · simp [PF.div, PF.sub, PF.add, PF.neg, h0, sub_eq_add_neg]
  · simp [PF.div, PF.sub, PF.add, PF.neg]

/-- Witness for C5 at the concrete zero-anchor input. -/
theorem C5_zero_anchor_amended_witness :
    ∃ r, calculate_all_forecasts obsZeroAnchor = some r
      ∧ 12 < r.betrag.length
      ∧ r.betrag.getD 0 0 = 0
      ∧ 0 < r.betrag.getD 12 0
      ∧ r.yoy_growth[12]? = some PF.inf := by
  obtain ⟨r, hr⟩ := calc_some_of_ne_nil obsZeroAnchor (by simp [obsZeroAnchor])
  obtain ⟨_, _, hbet, _, _, _, _, _, _⟩ := calc_inv hr
  have hb : r.betrag = [0, 1, 1, 1, 1, 1, 1, 1, 1, 1, 1, 1, 5] := by
    rw [hbet]
    norm_num [obsZeroAnchor, sortObs, List.insertionSort, List.orderedInsert]
  have h12 : (12 : ℕ) < r.betrag.length := by
    rw [hb]
    norm_num
  have hy := C5_zero_anchor_amended obsZeroAnchor r hr 12 h12
  rw [hb] at hy
  norm_num [List.getD] at hy
  exact ⟨r, hr, h12, by rw [hb]; rfl, by rw [hb]; norm_num [List.getD], hy⟩

/-- C6 (counterexample): the claim states that for observed months with no
prior-year anchor the expected amount falls back to the trailing mean of the
last 6 observed amounts rather than being absent.  On `obsSingle` the single
observed month has no anchor; the trailing mean is `1` (`tail6mean`), yet the
code's `hist_forecast` is NaN — absent, no fallback. -/
theorem C6_counterexample :
    (calculate_all_forecasts obsSingle).map (fun r => r.hist_forecast) = some [PF.nan]
    ∧ tail6mean [(1 : ℚ)] = PF.val 1
    ∧ PF.nan ≠ PF.val 1 := by
  refine ⟨?_, tail6mean_singleton 1, by simp⟩
  rw [eval_obsSingle]
  rfl

/-- C6 (amended): the reconstructed expected amount at row `i` is
`prev_year_amount * (1 + rolling_trend)` where the anchor is the amount 12
rows earlier; for the first 12 rows (no positional anchor) it is NaN — the
historical baseline has no trailing-mean fallback (that fallback exists only
in the forward forecast). -/
theorem C6_hist_no_fallback_amended (obs : List Obs) (r : ForecastResult)
    (h : calculate_all_forecasts obs = some r) (i : ℕ) (hi : i < r.betrag.length) :
    r.hist_forecast[i]?
      = some (if 12 ≤ i
          then (PF.val (r.betrag.getD (i - 12) 0)).mul ((PF.val 1).add (rollF r.betrag i))
          else PF.nan) := by
  obtain ⟨_, _, _, _, _, _, hhist, _, _⟩ := calc_inv h
  rw [hhist, getElem?_range_map _ hi]
  congr 1
  unfold histF prevF
  split_ifs with h12
  · rfl
  · exact PF.nan_mul _

/-- Witness for C6 on a concrete input: the single row has no anchor and its
expected amount is NaN. -/
theorem C6_hist_no_fallback_amended_witness :
    ∃ r, calculate_all_forecasts obsSingle = some r
      ∧ 0 < r.betrag.length
      ∧ r.hist_forecast[0]? = some PF.nan := by
  refine ⟨resSingle, eval_obsSingle, by norm_num [resSingle], ?_⟩
  have h6 := C6_hist_no_fallback_amended obsSingle resSingle eval_obsSingle 0
    (by norm_num [resSingle])
  simpa using h6

/-- C7: the forward forecast produces exactly 12 points, one per month after
the last observed month, in chronological order.  For each forecast month the
prior-year observation is looked up by exact calendar match on the month key;
when it exists the forecast is `priorYearAmount * (1 + current_trend)` with
the one fixed current trend reused for all 12 steps, and otherwise it is the
mean of the last (up to) 6 observed amounts (`tail6mean` of the observed
column — never of forecasted values). -/
theorem C7_forward_forecast (obs : List Obs) (r : ForecastResult)
    (h : calculate_all_forecasts obs = some r)
    (hnd : (obs.map Prod.fst).Nodup) :
    r.future.length = 12
    ∧ r.future.map Prod.fst
        = (List.range 12).map (fun (k : ℕ) => r.last_point.1 + ((k : ℤ) + 1))
    ∧ (∀ k : ℕ, k < 12 → ∀ a : ℚ,
        (r.last_point.1 + ((k : ℤ) + 1) - 12, a) ∈ obs →
          r.future[k]? = some (r.last_point.1 + ((k : ℤ) + 1),
            (PF.val a).mul ((PF.val 1).add r.current_trend)))
    ∧ (∀ k : ℕ, k < 12 →
        (∀ p ∈ obs, p.1 ≠ r.last_point.1 + ((k : ℤ) + 1) - 12) →
          r.future[k]? = some (r.last_point.1 + ((k : ℤ) + 1), tail6mean r.betrag)) := by
  obtain ⟨hlast, hmonat, hbetrag, _, _, _, _, hct, hfut⟩ := calc_inv h
  have hnds : ((sortObs obs).map Prod.fst).Nodup :=
    (List.Perm.nodup_iff ((sortObs_perm obs).map Prod.fst)).mpr hnd
  refine ⟨?_, ?_, ?_, ?_⟩
  · rw [hfut, futureF_length]
  · rw [hfut, futureF_map_fst]
  · intro k hk a hmem
    rw [hfut, futureF_getElem hk]
    have hmem' : (r.last_point.1 + ((k : ℤ) + 1) - 12, a) ∈ sortObs obs :=
      ((sortObs_perm obs).mem_iff).mpr hmem
    rw [find?_month_eq hnds hmem']
  · intro k hk hnone
    rw [hfut, futureF_getElem hk]
    have hfind : (sortObs obs).find?
        (fun rr => decide (rr.1 = r.last_point.1 + ((k : ℤ) + 1) - 12)) = none := by
      rw [List.find?_eq_none]
      intro x hx
      simp only [decide_eq_true_eq]
      exact hnone x (((sortObs_perm obs).mem_iff).mp hx)
    rw [hfind, hbetrag]

/-- Witness for C7 on a concrete input: for the single observation `(0, 1)`
the 12th forecast month finds its anchor by calendar match and the first
forecast month falls back to the trailing mean. -/
theorem C7_forward_forecast_witness :
    ∃ r, calculate_all_forecasts obsSingle = some r
      ∧ r.future.length = 12
      ∧ r.future[11]? = some (12, (PF.val 1).mul ((PF.val 1).add r.current_trend))
      ∧ r.future[0]? = some (1, tail6mean r.betrag) := by
  have c7 := C7_forward_forecast obsSingle resSingle eval_obsSingle (by simp [obsSingle])
  refine ⟨resSingle, eval_obsSingle, c7.1, ?_, ?_⟩
  · have h11 := c7.2.2.1 11 (by norm_num) 1 (by norm_num [obsSingle, resSingle])
    norm_num [resSingle] at h11 ⊢
    convert h11 using 2
  · have h0 := c7.2.2.2 0 (by norm_num) (by norm_num [obsSingle, resSingle])
    norm_num [resSingle] at h0 ⊢
    convert h0 using 2

/-- C8 (counterexample): the claim states the percent-change figure is absent
whenever the previous-period value is zero and that the code never divides by
zero.  With a non-empty previous period summing to zero (one row of amount 0)
and a current sum of 5, the code divides by zero and produces `+infinity`
instead of the sentinel. -/
theorem C8_counterexample :
    diff_val 5 [0] = some PF.inf ∧ some PF.inf ≠ (none : Option PF) := by
  refine ⟨?_, by simp⟩
  norm_num [diff_val, PF.div, PF.sub, PF.add, PF.neg, PF.mul]

/-- C8 (amended): the sentinel `"--"` is produced exactly when the
previous-period window holds no row; when it holds rows with positive sum the
figure is `((current / previous) - 1) * 100`, and when it holds rows summing
to zero with positive current sum the code divides by zero and shows
`+infinity` — it does not fall back to the sentinel and never fabricates a
plain 0% change. -/
theorem C8_percent_change_amended (c : ℚ) (prev : List ℚ) :
    (prev = [] → diff_val c prev = none)
    ∧ (prev ≠ [] → 0 < prev.foldl (· + ·) 0 →
        diff_val c prev = some (PF.val ((c / prev.foldl (· + ·) 0 - 1) * 100)))
    ∧ (prev ≠ [] → prev.foldl (· + ·) 0 = 0 → 0 < c →
        diff_val c prev = some PF.inf) := by
  refine ⟨?_, ?_, ?_⟩
  · intro hp
    simp [diff_val, hp]
  · intro hp hpos
    rw [diff_val, if_neg (by simpa [List.isEmpty_iff] using hp)]
    have hne : prev.foldl (· + ·) 0 ≠ 0 := ne_of_gt hpos
    simp [PF.div, PF.sub, PF.add, PF.neg, PF.mul, hne, sub_eq_add_neg]
  · intro hp hzero hc
    rw [diff_val, if_neg (by simpa [List.isEmpty_iff] using hp)]
    simp [PF.div, PF.sub, PF.add, PF.neg, PF.mul, hzero, hc, ne_of_gt hc]

/-- Witness for C8: all three branches at concrete inputs. -/
theorem C8_percent_change_amended_witness :
    diff_val 3 ([] : List ℚ) = none
    ∧ diff_val 3 [2] = some (PF.val 50)
    ∧ diff_val 5 [0] = some PF.inf := by
  refine ⟨(C8_percent_change_amended 3 []).1 rfl, ?_, ?_⟩
  · have h := (C8_percent_change_amended 3 [2]).2.1 (by simp) (by norm_num)
    rw [h]
    norm_num
  · exact (C8_percent_change_amended 5 [0]).2.2 (by simp) (by norm_num) (by norm_num)

/-- C9: on an input consisting of a single observation `(m, a)` the current
trend is the neutral rate 0 — a value, not an error and not NaN — and all 12
forward forecast points equal the observed amount `a`: months 1-11 via the
trailing-mean fallback over the only observed value, month 12 via its anchor
times `1 + 0`. -/
theorem C9_single_observation (m : ℤ) (a : ℚ) :
    (calculate_all_forecasts [(m, a)]).map
        (fun r => (r.current_trend, r.future.map Prod.snd))
      = some (PF.val 0, List.replicate 12 (PF.val a)) := by
  have h : calculate_all_forecasts [(m, a)]
      = some { monat := [m], betrag := [a], pya := [PF.nan], yoy_growth := [PF.nan],
               rolling_trend := [PF.nan], hist_forecast := [PF.nan],
               current_trend := PF.val 0,
               future := futureF [(m, a)] m (PF.val 0), last_point := (m, a) } := rfl
  rw [h, Option.map_some']
  refine congrArg some (Prod.ext rfl ?_)
  show (futureF [(m, a)] m (PF.val 0)).map Prod.snd = List.replicate 12 (PF.val a)
  unfold futureF
  rw [List.map_map]
  have h2 : (List.range 12).map (fun _ : ℕ => PF.val a) = List.replicate 12 (PF.val a) := by
    rw [List.map_const', List.length_range]
  refine Eq.trans (List.map_congr_left ?_) h2
  intro k hk
  have hk12 : k < 12 := List.mem_range.mp hk
  simp only [Function.comp]
  by_cases hk11 : k = 11
  · subst hk11
    have hfind : List.find? (fun rr => decide (rr.1 = m + (((11 : ℕ) : ℤ) + 1) - 12)) [(m, a)]
        = some (m, a) := by
      apply List.find?_cons_of_pos
      rw [decide_eq_true_eq]
      push_cast
      ring
    rw [hfind]
    show (PF.val a).mul ((PF.val 1).add (PF.val 0)) = PF.val a
    show PF.val (a * (1 + 0)) = PF.val a
    norm_num
  · have hfind : List.find? (fun rr => decide (rr.1 = m + ((k : ℤ) + 1) - 12)) [(m, a)]
        = none := by
      rw [List.find?_eq_none]
      intro x hx
      rcases List.mem_singleton.mp hx with rfl
      rw [decide_eq_true_eq]
      intro hmm
      omega
    rw [hfind]
    show tail6mean (List.map Prod.snd [(m, a)]) = PF.val a
    show tail6mean [a] = PF.val a
    exact tail6mean_singleton a

/-- Witness for C9 at a concrete single observation. -/
theorem C9_single_observation_witness :
    (calculate_all_forecasts [((0 : ℤ), (1 : ℚ))]).map
        (fun r => (r.current_trend, r.future.map Prod.snd))
      = some (PF.val 0, List.replicate 12 (PF.val 1)) :=
  C9_single_observation 0 1

/-- C10: the implementation uses the rate representation uniformly: the
year-over-year value is the ratio minus 1 (so adding 1 back restores the raw
ratio), the neutral trend on empty growth history is the rate 0, and the
historical expectation multiplies the anchor by `1 + trend`; the forward
forecast multiplies its anchor by `1 + current_trend` (lines 73-78). -/
theorem C10_rate_representation (obs : List Obs) (r : ForecastResult)
    (h : calculate_all_forecasts obs = some r) :
    (∀ i : ℕ, i < r.betrag.length →
        r.yoy_growth[i]?
            = some (((PF.val (r.betrag.getD i 0)).div (prevF r.betrag i)).sub (PF.val 1))
        ∧ (PF.val 1).add
              (((PF.val (r.betrag.getD i 0)).div (prevF r.betrag i)).sub (PF.val 1))
            = (PF.val (r.betrag.getD i 0)).div (prevF r.betrag i)
        ∧ r.hist_forecast[i]?
            = some ((prevF r.betrag i).mul ((PF.val 1).add (rollF r.betrag i))))
    ∧ (((List.range r.betrag.length).map (yoyF r.betrag)).filter (fun x => !x.isNaN) = []
        → r.current_trend = PF.val 0) := by
  obtain ⟨_, _, _, _, hyoy, _, hhist, hct, _⟩ := calc_inv h
  constructor
  · intro i hi
    refine ⟨?_, PF.one_add_sub_one _, ?_⟩
    · rw [hyoy, getElem?_range_map _ hi]
      rfl
    · rw [hhist, getElem?_range_map _ hi]
      rfl
  · intro hfe
    rw [hct]
    unfold currentTrendF
    rw [hfe]
    simp

/-- Witness for C10 at a concrete input. -/
theorem C10_rate_representation_witness :
    ∃ r, calculate_all_forecasts obsSingle = some r
      ∧ 0 < r.betrag.length
      ∧ r.yoy_growth[0]?
          = some (((PF.val (r.betrag.getD 0 0)).div (prevF r.betrag 0)).sub (PF.val 1))
      ∧ r.current_trend = PF.val 0 := by
  refine ⟨resSingle, eval_obsSingle, by norm_num [resSingle], ?_, ?_⟩
  · exact ((C10_rate_representation obsSingle resSingle eval_obsSingle).1 0
      (by norm_num [resSingle])).1
  · apply (C10_rate_representation obsSingle resSingle eval_obsSingle).2
    norm_num [resSingle, yoyF, prevF, PF.div, PF.sub, PF.add, PF.neg, PF.isNaN,
      List.filter_cons, List.range_succ, List.getD]
